import Mathlib

/-!
Formal model of the cody_emulator core (a WDC 65C02 emulator): interrupt
signals, the memory bus, the CPU interpreter's arithmetic and stepping logic,
the VIA peripheral, and the assembler's label resolution.  Definitions are
shallow embeddings of the corresponding Rust items; machine integers are
modelled as `Nat` with explicit reductions modulo `256`, `65536` or `2 ^ 64`
at the points where the Rust types wrap.
-/

set_option maxRecDepth 4000

namespace Cody

/-- Modelled from the spec: the interrupt-signal type with the combinators
used by `cpu.rs`, `mapped.rs` and `via.rs` (`Interrupt::none()`,
`Interrupt::irq()`, `is_irq`, `is_nmi`, `or`) is not present under `src`;
`interrupt.rs` holds a stale three-variant enum without those methods.  The
spec describes the signal as a pair of independent bits `irq` and `nmi`,
combinable with a monoidal OR. -/
structure Interrupt where
  irq : Bool
  nmi : Bool
deriving DecidableEq, Repr

/-- Modelled from the spec: the signal with no pending interrupt
(`Interrupt::none()`). -/
def Interrupt.noSignal : Interrupt := ⟨false, false⟩

/-- Modelled from the spec: the signal with only the irq bit set
(`Interrupt::irq()`). -/
def Interrupt.irqSignal : Interrupt := ⟨true, false⟩

/-- Modelled from the spec: the signal with only the nmi bit set
(`Interrupt::nmi()`). -/
def Interrupt.nmiSignal : Interrupt := ⟨false, true⟩

/-- Modelled from the spec: monoidal OR of two interrupt signals, combining
the `irq` bits and the `nmi` bits independently. -/
def Interrupt.or (a b : Interrupt) : Interrupt := ⟨a.irq || b.irq, a.nmi || b.nmi⟩

/-- Modelled from the spec: whether the irq bit is set (`Interrupt::is_irq`). -/
def Interrupt.is_irq (a : Interrupt) : Bool := a.irq

/-- Modelled from the spec: whether the nmi bit is set (`Interrupt::is_nmi`). -/
def Interrupt.is_nmi (a : Interrupt) : Bool := a.nmi

/-- The interrupt-folding loop of `MappedMemory::update`
(`src/src/memory/mapped.rs` lines 47-53): starting from the empty signal,
OR in the signal returned by each region's tick, in insertion order.
The argument is the list of the per-region signals. -/
def MappedMemory.foldInterrupts (sigs : List Interrupt) : Interrupt :=
  sigs.foldl Interrupt.or Interrupt.noSignal

/-- One region of the mapped bus: an entry `(start, size, memory)` of the
`memories` vector of `MappedMemory` (`src/src/memory/mapped.rs`), with the
boxed memory modelled by its read function on rebased addresses. -/
structure Region where
  start : Nat
  size : Nat
  read : Nat → Nat

/-- Saturating 16-bit addition, `u16::saturating_add`. -/
def satAdd16 (a b : Nat) : Nat := min (a + b) 65535

/-- The loop of `MappedMemory::read_u8` (`src/src/memory/mapped.rs` lines
24-34), on the already-reversed region list: skip regions with `size == 0`;
on the first region whose closed range
`start ..= start.saturating_add(size - 1)` holds the address, return its
read at the address rebased to the region start; fall back to 0. -/
def mappedReadRev : List Region → Nat → Nat
  | [], _ => 0
  | r :: rest, addr =>
    if r.size = 0 then mappedReadRev rest addr
    else if r.start ≤ addr ∧ addr ≤ satAdd16 r.start (r.size - 1) then r.read (addr - r.start)
    else mappedReadRev rest addr

/-- Byte read of the mapped bus, `MappedMemory::read_u8`: the region list is
kept in insertion order and iterated in reverse. -/
def MappedMemory.read_u8 (memories : List Region) (addr : Nat) : Nat :=
  mappedReadRev memories.reverse addr

/-- Spec-side matching test: a region matches an address when its size is
nonzero and the half-open range `[start, start + size)` holds the address. -/
def Region.matches (addr : Nat) (r : Region) : Bool :=
  r.size ≠ 0 && r.start ≤ addr && addr < r.start + r.size

/-- Spec-side description of the mapped-bus read: the most recently added
matching region handles the access at the rebased address; with no match the
result is 0. -/
def MappedMemory.readSpec (memories : List Region) (addr : Nat) : Nat :=
  match memories.reverse.find? (Region.matches addr) with
  | some r => r.read (addr - r.start)
  | none => 0

/-- A memory/bus implementation, i.e. the `Memory` trait of
`src/src/memory/mod.rs`, over a state type `σ`: stateful byte read, byte
write, and the clock tick `update` returning an interrupt signal. -/
structure MemModel (σ : Type) where
  read_u8 : σ → Nat → Nat × σ
  write_u8 : σ → Nat → Nat → σ
  update : σ → Nat → Interrupt × σ

/-- Default trait method `Memory::read_u8_zp`: forward to `read_u8` (the
zero-page address is already a byte). -/
def MemModel.read_u8_zp {σ : Type} (M : MemModel σ) (s : σ) (a : Nat) : Nat × σ :=
  M.read_u8 s a

/-- Default trait method `Memory::read_u16`: little-endian; low byte at
`addr`, high byte at `addr.wrapping_add(1)` in 16-bit space. -/
def MemModel.read_u16 {σ : Type} (M : MemModel σ) (s : σ) (a : Nat) : Nat × σ :=
  let l := M.read_u8 s a
  let h := M.read_u8 l.2 ((a + 1) % 65536)
  (l.1 + 256 * h.1, h.2)

/-- Default trait method `Memory::read_u16_zp`: little-endian; both reads go
through `read_u8_zp`, the high byte at `addr.wrapping_add(1)` as a byte, so
both addresses stay inside the zero page. -/
def MemModel.read_u16_zp {σ : Type} (M : MemModel σ) (s : σ) (a : Nat) : Nat × σ :=
  let l := M.read_u8_zp s a
  let h := M.read_u8_zp l.2 ((a + 1) % 256)
  (l.1 + 256 * h.1, h.2)

/-- A 64 KiB RAM (`Contiguous<Ram>` of `src/src/memory/contiguous.rs` with
`len = 0x10000`), modelled as a function from addresses to cell contents:
reads index the backing store at `address % len`, writes store there, and
`update` reports no interrupt.  The reductions modulo 256 encode the `u8`
cell type of the backing `Box<[u8]>`. -/
def ramModel : MemModel (Nat → Nat) where
  read_u8 := fun f a => (f (a % 65536) % 256, f)
  write_u8 := fun f a v => fun i => if i = a % 65536 then v % 256 else f i
  update := fun f _ => (Interrupt.noSignal, f)

/-- Value read by the RAM model at an address. -/
def ramByte (f : Nat → Nat) (a : Nat) : Nat := f (a % 65536) % 256

/-- The processor status byte `Status` of `src/src/cpu.rs` (lines 11-25), a
bitfield with the flags in LSB-first order: carry, zero, irqb_disable,
decimal_mode, brk_command, unused, overflow, negative. -/
structure Status where
  carry : Bool
  zero : Bool
  irqb_disable : Bool
  decimal_mode : Bool
  brk_command : Bool
  unused : Bool
  overflow : Bool
  negative : Bool
deriving DecidableEq, Repr

/-- Packed byte of the status register (`Status::into_bits`), LSB first. -/
def Status.into_bits (p : Status) : Nat :=
  (if p.carry then 1 else 0) + (if p.zero then 2 else 0) +
  (if p.irqb_disable then 4 else 0) + (if p.decimal_mode then 8 else 0) +
  (if p.brk_command then 16 else 0) + (if p.unused then 32 else 0) +
  (if p.overflow then 64 else 0) + (if p.negative then 128 else 0)

/-- Default status value: irqb_disable, brk_command and unused default to
set, everything else clear (`Status::default`). -/
def Status.default : Status :=
  ⟨false, false, true, false, true, true, false, false⟩

/-- The CPU state `Cpu<M>` of `src/src/cpu.rs` (lines 27-49): registers A,
X, Y, stack pointer S, status P, program counter PC, the memory/bus state,
the run and wait-for-interrupt flags, and the elapsed cycle counter. -/
structure Cpu (σ : Type) where
  a : Nat
  x : Nat
  y : Nat
  s : Nat
  p : Status
  pc : Nat
  memory : σ
  run : Bool
  wai : Bool
  cycle : Nat

/-- Flag helper `Cpu::update_nz_flags`: zero iff the value is 0, negative
iff bit 7 of the value is set. -/
def Cpu.update_nz_flags {σ : Type} (c : Cpu σ) (value : Nat) : Cpu σ :=
  { c with p := { c.p with zero := decide (value = 0), negative := decide (value &&& 128 ≠ 0) } }

/-- Register write `Cpu::set_a`: store the value in A, then update N and Z. -/
def Cpu.set_a {σ : Type} (c : Cpu σ) (value : Nat) : Cpu σ :=
  ({ c with a := value }).update_nz_flags value

/-- Register write `Cpu::set_x`. -/
def Cpu.set_x {σ : Type} (c : Cpu σ) (value : Nat) : Cpu σ :=
  ({ c with x := value }).update_nz_flags value

/-- Register write `Cpu::set_y`. -/
def Cpu.set_y {σ : Type} (c : Cpu σ) (value : Nat) : Cpu σ :=
  ({ c with y := value }).update_nz_flags value

/-- Binary-mode adder `Cpu::do_addition` (`src/src/cpu.rs` lines 620-628):
with `a` and `cf` the incoming accumulator and carry, the result is the
byte-wrapping sum `a + m + c`; the carry is set from `r <= a` (carry in set)
or `r < a` (carry in clear); the overflow flag is
`((a ^ r) & (m ^ r) & 0x80) != 0`. -/
def Cpu.do_addition {σ : Type} (c : Cpu σ) (m : Nat) : Cpu σ :=
  let a := c.a
  let cf := c.p.carry
  let cv := if cf then 1 else 0
  let r := ((a + m) % 256 + cv) % 256
  let c1 := c.set_a r
  let c2 := { c1 with p := { c1.p with carry := if cf then decide (r ≤ a) else decide (r < a) } }
  { c2 with p := { c2.p with overflow := decide ((a ^^^ r) &&& (m ^^^ r) &&& 128 ≠ 0) } }

/-- Decimal-mode adder `Cpu::do_addition_decimal` (`src/src/cpu.rs` lines
630-653): per-nibble BCD addition; the overflow flag is derived from the
pre-adjust high half-sum. -/
def Cpu.do_addition_decimal {σ : Type} (c : Cpu σ) (m : Nat) : Cpu σ :=
  let a := c.a
  let cf := c.p.carry
  let c0 := if cf then 1 else 0
  let lo0 := ((a &&& 15) + (m &&& 15) + c0) % 256
  let c1 := if lo0 > 9 then 1 else 0
  let lo := if c1 ≠ 0 then (lo0 - 10) &&& 15 else lo0
  let hi0 := ((a >>> 4) + (m >>> 4) + c1) % 256
  let ofp := (hi0 &&& 8) <<< 4
  let c2 := if hi0 > 9 then 1 else 0
  let hi := if c2 ≠ 0 then (hi0 - 10) &&& 15 else hi0
  let r := lo ||| (hi <<< 4)
  let cc := c.set_a r
  let cc := { cc with p := { cc.p with carry := decide (c2 ≠ 0) } }
  { cc with p := { cc.p with overflow := decide ((a ^^^ ofp) &&& (m ^^^ ofp) &&& 128 ≠ 0) } }

/-- Binary-mode subtraction `Cpu::do_subtraction` (`src/src/cpu.rs` lines
655-657): addition of the bitwise complement of the operand (`!m` on a byte
is `m XOR 0xFF`). -/
def Cpu.do_subtraction {σ : Type} (c : Cpu σ) (m : Nat) : Cpu σ :=
  c.do_addition (m ^^^ 255)

/-- Byte-wrapping subtraction, `u8::wrapping_sub` for in-range operands. -/
def wsub8 (x y : Nat) : Nat := (x % 256 + 256 - y % 256) % 256

/-- Decimal-mode subtraction `Cpu::do_subtraction_decimal` (`src/src/cpu.rs`
lines 659-686): per-nibble BCD subtraction with borrow; the carry flag is
set when no final borrow remains. -/
def Cpu.do_subtraction_decimal {σ : Type} (c : Cpu σ) (m : Nat) : Cpu σ :=
  let a := c.a
  let cf := c.p.carry
  let b0 := if cf then 0 else 1
  let lo0 := wsub8 (wsub8 (a &&& 15) (m &&& 15)) b0
  let b1 := if lo0 &&& 128 ≠ 0 then 1 else 0
  let lo1 := if b1 ≠ 0 then (lo0 + 10) % 256 else lo0
  let negative_lo := lo1 &&& 128 ≠ 0
  let lo := lo1 &&& 15
  let hi0 := wsub8 (wsub8 (a >>> 4) (m >>> 4)) b1
  let ofp := (hi0 &&& 8) <<< 4
  let b2 := if hi0 &&& 128 ≠ 0 then 1 else 0
  let hi1 := if b2 ≠ 0 then (hi0 + 10) % 256 else hi0
  let hi2 := wsub8 hi1 (if negative_lo then 1 else 0)
  let hi := hi2 &&& 15
  let r := lo ||| (hi <<< 4)
  let cc := c.set_a r
  let cc := { cc with p := { cc.p with carry := decide (b2 = 0) } }
  { cc with p := { cc.p with overflow := decide ((a ^^^ ofp) &&& ((m ^^^ 255) ^^^ ofp) &&& 128 ≠ 0) } }

/-- The decimal-mode dispatch of the ADC arm of `step_instruction`
(`src/src/cpu.rs` lines 121-126), on the already-read operand. -/
def Cpu.adc {σ : Type} (c : Cpu σ) (m : Nat) : Cpu σ :=
  if c.p.decimal_mode then c.do_addition_decimal m else c.do_addition m

/-- The decimal-mode dispatch of the SBC arm of `step_instruction`
(`src/src/cpu.rs` lines 397-402), on the already-read operand. -/
def Cpu.sbc {σ : Type} (c : Cpu σ) (m : Nat) : Cpu σ :=
  if c.p.decimal_mode then c.do_subtraction_decimal m else c.do_subtraction m

/-- A concrete CPU state used to instantiate ALU theorems: A = 200, carry
set, decimal mode clear. -/
def aluTestCpu : Cpu Unit where
  a := 200
  x := 0
  y := 0
  s := 253
  p := { carry := true, zero := false, irqb_disable := true, decimal_mode := false,
         brk_command := true, unused := true, overflow := false, negative := false }
  pc := 0
  memory := ()
  run := true
  wai := false
  cycle := 0

/-- C1: with decimal mode clear, ADC sets the accumulator to
`(A + M + C) mod 256` and sets the carry flag iff `A + M + C >= 256`. -/
theorem adc_binary_accumulator_carry {σ : Type} (c : Cpu σ) (m : Nat)
    (hd : c.p.decimal_mode = false) (ha : c.a < 256) (hm : m < 256) :
    (c.adc m).a = (c.a + m + (if c.p.carry then 1 else 0)) % 256 ∧
    ((c.adc m).p.carry = true ↔ 256 ≤ c.a + m + (if c.p.carry then 1 else 0)) := by
  cases hcf : c.p.carry <;>
    simp only [Cpu.adc, hd, if_false, Bool.false_eq_true, Cpu.do_addition, Cpu.set_a,
      Cpu.update_nz_flags, hcf, if_true, decide_eq_true_eq] <;>
    constructor <;> omega

/-- Witness for C1 at the concrete state `aluTestCpu` with operand 100. -/
theorem adc_binary_accumulator_carry_witness :
    aluTestCpu.p.decimal_mode = false ∧ aluTestCpu.a < 256 ∧ (100 : Nat) < 256 ∧
    ((aluTestCpu.adc 100).a = (aluTestCpu.a + 100 + (if aluTestCpu.p.carry then 1 else 0)) % 256 ∧
      ((aluTestCpu.adc 100).p.carry = true ↔
        256 ≤ aluTestCpu.a + 100 + (if aluTestCpu.p.carry then 1 else 0))) :=
  ⟨rfl, by decide, by decide,
    adc_binary_accumulator_carry aluTestCpu 100 rfl (by decide) (by decide)⟩

/-- C7: with decimal mode clear, SBC produces exactly the same CPU state
(accumulator and N, Z, C, V flags included) as ADC of the complemented
operand `M XOR 0xFF`. -/
theorem sbc_binary_eq_adc_complement {σ : Type} (c : Cpu σ) (m : Nat)
    (hd : c.p.decimal_mode = false) :
    c.sbc m = c.adc (m ^^^ 255) := by
  simp [Cpu.sbc, Cpu.adc, hd, Cpu.do_subtraction]

/-- Witness for C7 at the concrete state `aluTestCpu` with operand 3. -/
theorem sbc_binary_eq_adc_complement_witness :
    aluTestCpu.p.decimal_mode = false ∧ aluTestCpu.sbc 3 = aluTestCpu.adc (3 ^^^ 255) :=
  ⟨rfl, sbc_binary_eq_adc_complement aluTestCpu 3 rfl⟩

/-- Folding interrupts preserves the irq bit: helper for the fold theorem. -/
theorem foldl_or_irq (i : Interrupt) (sigs : List Interrupt) :
    (sigs.foldl Interrupt.or i).irq = (i.irq || sigs.any Interrupt.is_irq) := by
  induction sigs generalizing i with
  | nil => simp
  | cons s rest ih => simp [List.foldl, ih, Interrupt.or, Interrupt.is_irq, Bool.or_assoc]

/-- Folding interrupts preserves the nmi bit: helper for the fold theorem. -/
theorem foldl_or_nmi (i : Interrupt) (sigs : List Interrupt) :
    (sigs.foldl Interrupt.or i).nmi = (i.nmi || sigs.any Interrupt.is_nmi) := by
  induction sigs generalizing i with
  | nil => simp
  | cons s rest ih => simp [List.foldl, ih, Interrupt.or, Interrupt.is_nmi, Bool.or_assoc]

/-- C3: the interrupt signal is a pair of independent bits; `or` combines
the irq bits and the nmi bits pointwise, is associative, has the empty
signal as identity, and the mapped bus's fold of region signals preserves
both bits (irq of the fold is the OR of the irq bits, likewise nmi); a
signal with both bits set is representable. -/
theorem interrupt_or_monoid_fold (a b d : Interrupt) (sigs : List Interrupt) :
    (a.or b).is_irq = (a.is_irq || b.is_irq) ∧
    (a.or b).is_nmi = (a.is_nmi || b.is_nmi) ∧
    (a.or b).or d = a.or (b.or d) ∧
    a.or Interrupt.noSignal = a ∧
    Interrupt.noSignal.or a = a ∧
    (MappedMemory.foldInterrupts sigs).is_irq = sigs.any Interrupt.is_irq ∧
    (MappedMemory.foldInterrupts sigs).is_nmi = sigs.any Interrupt.is_nmi ∧
    (Interrupt.irqSignal.or Interrupt.nmiSignal).is_irq = true ∧
    (Interrupt.irqSignal.or Interrupt.nmiSignal).is_nmi = true := by
  refine ⟨rfl, rfl, ?_, ?_, ?_, ?_, ?_, rfl, rfl⟩
  · simp [Interrupt.or, Bool.or_assoc]
  · cases a; simp [Interrupt.or, Interrupt.noSignal]
  · cases a; simp [Interrupt.or, Interrupt.noSignal]
  · simpa [MappedMemory.foldInterrupts, Interrupt.noSignal, Interrupt.is_irq] using
      foldl_or_irq Interrupt.noSignal sigs
  · simpa [MappedMemory.foldInterrupts, Interrupt.noSignal, Interrupt.is_nmi] using
      foldl_or_nmi Interrupt.noSignal sigs

/-- C4: read_u16_zp reads its low byte at `p` and its high byte at
`(p + 1) mod 256`, both addresses inside the zero page; in particular at
`p = 0xFF` the high byte comes from address 0, while the plain `read_u16`
would read it at 0x0100. -/
theorem read_u16_zp_zero_page {σ : Type} (M : MemModel σ) (s : σ) (a : Nat) (ha : a < 256) :
    (M.read_u16_zp s a).1 =
      (M.read_u8 s a).1 + 256 * (M.read_u8 (M.read_u8 s a).2 ((a + 1) % 256)).1 ∧
    (a + 1) % 256 < 256 ∧
    (M.read_u16_zp s 255).1 =
      (M.read_u8 s 255).1 + 256 * (M.read_u8 (M.read_u8 s 255).2 0).1 ∧
    (M.read_u16 s 255).1 =
      (M.read_u8 s 255).1 + 256 * (M.read_u8 (M.read_u8 s 255).2 256).1 := by
  refine ⟨rfl, by omega, ?_, ?_⟩
  · show (M.read_u8 s 255).1 + 256 * (M.read_u8 (M.read_u8 s 255).2 ((255 + 1) % 256)).1 = _
    norm_num
  · show (M.read_u8 s 255).1 + 256 * (M.read_u8 (M.read_u8 s 255).2 ((255 + 1) % 65536)).1 = _
    norm_num

/-- Witness for C4 at the RAM model with address 0xFF. -/
theorem read_u16_zp_zero_page_witness :
    (255 : Nat) < 256 ∧
    ((ramModel.read_u16_zp (fun i => i % 7) 255).1 =
        (ramModel.read_u8 (fun i => i % 7) 255).1 +
          256 * (ramModel.read_u8 (ramModel.read_u8 (fun i => i % 7) 255).2 ((255 + 1) % 256)).1 ∧
      (255 + 1) % 256 < 256 ∧
      (ramModel.read_u16_zp (fun i => i % 7) 255).1 =
        (ramModel.read_u8 (fun i => i % 7) 255).1 +
          256 * (ramModel.read_u8 (ramModel.read_u8 (fun i => i % 7) 255).2 0).1 ∧
      (ramModel.read_u16 (fun i => i % 7) 255).1 =
        (ramModel.read_u8 (fun i => i % 7) 255).1 +
          256 * (ramModel.read_u8 (ramModel.read_u8 (fun i => i % 7) 255).2 256).1) :=
  ⟨by decide, read_u16_zp_zero_page ramModel (fun i => i % 7) 255 (by decide)⟩

/-- The reversed-list read loop agrees with a first-match lookup using the
half-open range test, for any 16-bit address. -/
theorem mappedReadRev_eq_find (l : List Region) (addr : Nat) (h : addr ≤ 65535) :
    mappedReadRev l addr =
      match l.find? (Region.matches addr) with
      | some r => r.read (addr - r.start)
      | none => 0 := by
  induction l with
  | nil => simp [mappedReadRev]
  | cons r rest ih =>
    by_cases hs : r.size = 0
    · have hm : Region.matches addr r = false := by
        simp [Region.matches, hs]
      rw [mappedReadRev, if_pos hs, List.find?, hm, ih]
    · have hiff : (r.start ≤ addr ∧ addr ≤ satAdd16 r.start (r.size - 1)) ↔
          Region.matches addr r = true := by
        simp only [Region.matches, satAdd16, Bool.and_eq_true, decide_eq_true_eq, ne_eq,
          Bool.not_eq_true', decide_eq_false_iff_not]
        omega
      by_cases hin : r.start ≤ addr ∧ addr ≤ satAdd16 r.start (r.size - 1)
      · rw [mappedReadRev, if_neg hs, if_pos hin, List.find?, hiff.mp hin]
      · have hm : Region.matches addr r = false := by
          rcases hmt : Region.matches addr r with _ | _
          · rfl
          · exact absurd (hiff.mpr hmt) hin
        rw [mappedReadRev, if_neg hs, if_neg hin, List.find?, hm, ih]

/-- Inserting a zero-size region anywhere in the (reversed) region list does
not change the result of the read loop. -/
theorem mappedReadRev_middle_zero (l1 l2 : List Region) (z : Region) (hz : z.size = 0)
    (addr : Nat) :
    mappedReadRev (l1 ++ z :: l2) addr = mappedReadRev (l1 ++ l2) addr := by
  induction l1 with
  | nil => simp [mappedReadRev, hz]
  | cons r rest ih =>
    by_cases hs : r.size = 0
    · simp only [List.cons_append, mappedReadRev, if_pos hs]
      exact ih
    · by_cases hin : r.start ≤ addr ∧ addr ≤ satAdd16 r.start (r.size - 1)
      · simp only [List.cons_append, mappedReadRev, if_neg hs, if_pos hin]
      · simp only [List.cons_append, mappedReadRev, if_neg hs, if_neg hin]
        exact ih

/-- C5: the mapped-bus read returns the read of the most recently added
region whose range holds the address, rebased to the region start, and 0
when no region matches (`readSpec` searches the insertion-reversed list for
the first region with nonzero size whose half-open range holds the address);
moreover a region of size 0 inserted anywhere is invisible to reads. -/
theorem mapped_read_resolution (memories pre post : List Region) (z : Region) (addr : Nat)
    (h : addr ≤ 65535) (hz : z.size = 0) :
    MappedMemory.read_u8 memories addr = MappedMemory.readSpec memories addr ∧
    MappedMemory.read_u8 (pre ++ z :: post) addr = MappedMemory.read_u8 (pre ++ post) addr := by
  constructor
  · rw [MappedMemory.read_u8, MappedMemory.readSpec, mappedReadRev_eq_find _ _ h]
  · rw [MappedMemory.read_u8, MappedMemory.read_u8]
    have h1 : (pre ++ z :: post).reverse = post.reverse ++ z :: pre.reverse := by
      simp
    have h2 : (pre ++ post).reverse = post.reverse ++ pre.reverse := by
      simp
    rw [h1, h2, mappedReadRev_middle_zero _ _ _ hz]

/-- Concrete regions used to instantiate the mapped-bus theorem. -/
def regionA : Region := ⟨0x1000, 0x100, fun a => (a + 1) % 256⟩

/-- Concrete zero-size region (a pure device). -/
def regionZ : Region := ⟨0, 0, fun _ => 9⟩

/-- Witness for C5 at a concrete two-region bus with a zero-size device. -/
theorem mapped_read_resolution_witness :
    (0x1010 : Nat) ≤ 65535 ∧ regionZ.size = 0 ∧
    (MappedMemory.read_u8 [regionA, regionZ] 0x1010 =
        MappedMemory.readSpec [regionA, regionZ] 0x1010 ∧
      MappedMemory.read_u8 ([regionA] ++ regionZ :: []) 0x1010 =
        MappedMemory.read_u8 ([regionA] ++ []) 0x1010) :=
  ⟨by decide, rfl, mapped_read_resolution [regionA, regionZ] [regionA] [] regionZ 0x1010
    (by decide) rfl⟩

/-- The VIA peripheral state (`Via` of `src/src/device/via.rs`): the 16-byte
register window, the shared keyboard matrix (`KeyState.state`, modelled by
its lookup function), the timer latches/counters/enables, and the IFR/IER
interrupt registers. -/
structure Via where
  registers : Nat → Nat
  key_state : Nat → Nat
  last_update : Nat
  t1_latch_lo : Nat
  t1_latch_hi : Nat
  t1_counter : Nat
  t1_enabled : Bool
  t2_latch_lo : Nat
  t2_latch_hi : Nat
  t2_counter : Nat
  t2_enabled : Bool
  ifr : Nat
  ier : Nat

/-- Register update `Via::set_ifr` (`src/src/device/via.rs` lines 59-65):
mask the written value to the low 7 bits and set bit 7 automatically iff
some enabled flag remains. -/
def Via.set_ifr (v : Via) (x : Nat) : Via :=
  { v with ifr := if (x &&& 127) &&& v.ier ≠ 0 then (x &&& 127) ||| 128 else x &&& 127 }

/-- Register update `Via::set_ier` (lines 67-76): with bit 7 set OR the
value into IER, otherwise AND out the listed bits (`!value` on a byte is
`value XOR 0xFF`); then refresh IFR bit 7 by rewriting the unchanged IFR
through set_ifr. -/
def Via.set_ier (v : Via) (x : Nat) : Via :=
  Via.set_ifr
    (if x &&& 128 ≠ 0 then { v with ier := v.ier ||| x }
     else { v with ier := v.ier &&& (x ^^^ 255) })
    v.ifr

/-- Port read `Via::read_iora` (lines 43-53): the assertion that DDRA holds
exactly 7 is modelled by returning `none` (the Rust code panics there);
otherwise the result is `keys[IORA & DDRA] | (IORA & DDRA)`. -/
def Via.read_iora (v : Via) : Option Nat :=
  let ddr := v.registers 3
  let ior := v.registers 1
  if ddr = 7 then
    let output := ior &&& ddr
    some (v.key_state output ||| output)
  else none

/-- Register read dispatch of the VIA, `<Via as Memory>::read_u8` (lines
80-100), with the match arms in source order; `none` models the IORA
assertion failure.  Reads of T1CL and T2CL clear IFR bits 6 and 5. -/
def Via.read_u8 (v : Via) (addr : Nat) : Option (Nat × Via) :=
  if addr = 1 then (Via.read_iora v).map (fun x => (x, v))
  else if addr = 4 then
    some ((v.set_ifr (v.ifr &&& 191)).t1_counter &&& 255, v.set_ifr (v.ifr &&& 191))
  else if addr = 5 then some (v.t1_counter >>> 8, v)
  else if addr = 6 then some (v.t1_latch_lo, v)
  else if addr = 7 then some (v.t1_latch_hi, v)
  else if addr = 8 then
    some ((v.set_ifr (v.ifr &&& 223)).t2_counter &&& 255, v.set_ifr (v.ifr &&& 223))
  else if addr = 9 then some (v.t2_counter >>> 8, v)
  else if addr = 13 then some (v.ifr, v)
  else if addr = 14 then some (v.ier ||| 128, v)
  else if addr ≤ 15 then some (v.registers addr, v)
  else some (0, v)

/-- Register write dispatch of the VIA, `<Via as Memory>::write_u8` (lines
102-130), with the match arms in source order. -/
def Via.write_u8 (v : Via) (addr value : Nat) : Via :=
  if addr = 4 then { v with t1_latch_lo := value }
  else if addr = 5 then
    { Via.set_ifr { v with t1_latch_hi := value } (v.ifr &&& 191) with
      t1_counter :=
        (Via.set_ifr { v with t1_latch_hi := value } (v.ifr &&& 191)).t1_latch_lo |||
          ((Via.set_ifr { v with t1_latch_hi := value } (v.ifr &&& 191)).t1_latch_hi <<< 8),
      t1_enabled := true }
  else if addr = 6 then { v with t1_latch_lo := value }
  else if addr = 7 then Via.set_ifr { v with t1_latch_hi := value } (v.ifr &&& 191)
  else if addr = 8 then { v with t2_latch_lo := value }
  else if addr = 9 then
    { Via.set_ifr { v with t2_latch_hi := value } (v.ifr &&& 223) with
      t2_counter :=
        (Via.set_ifr { v with t2_latch_hi := value } (v.ifr &&& 223)).t2_latch_lo |||
          ((Via.set_ifr { v with t2_latch_hi := value } (v.ifr &&& 223)).t2_latch_hi <<< 8),
      t2_enabled := true }
  else if addr = 13 then v.set_ifr value
  else if addr = 14 then v.set_ier value
  else if addr ≤ 15 then
    { v with registers := fun i => if i = addr then value else v.registers i }
  else v

/-- Decrement of timer 1 with 16-bit wrap (`u16::wrapping_sub(1)`). -/
def Via.tickT1dec (v : Via) : Via :=
  { v with t1_counter := (v.t1_counter % 65536 + 65535) % 65536 }

/-- Underflow handling of timer 1 (lines 140-149): when enabled, raise IFR
bit 6 and, outside continuous mode (ACR bit 6 clear), disable the timer. -/
def Via.tickT1fire (acr : Nat) (v : Via) : Via :=
  if v.t1_enabled then
    if acr &&& 64 = 0 then { v.set_ifr (v.ifr ||| 64) with t1_enabled := false }
    else v.set_ifr (v.ifr ||| 64)
  else v

/-- Timer-1 half of one tick-loop iteration of `<Via as Memory>::update`
(lines 138-156): decrement the counter; on reaching 0 run the underflow
handling and reload the counter from the latches. -/
def Via.tickT1 (acr : Nat) (v : Via) : Via :=
  if (Via.tickT1dec v).t1_counter = 0 then
    { Via.tickT1fire acr (Via.tickT1dec v) with
      t1_counter :=
        (Via.tickT1fire acr (Via.tickT1dec v)).t1_latch_lo |||
          ((Via.tickT1fire acr (Via.tickT1dec v)).t1_latch_hi <<< 8) }
  else Via.tickT1dec v

/-- Gated decrement of timer 2 (lines 158-162): no decrement while ACR
bit 5 selects PB6 pulse counting. -/
def Via.tickT2dec (acr : Nat) (v : Via) : Via :=
  if acr &&& 32 ≠ 0 then v
  else { v with t2_counter := (v.t2_counter % 65536 + 65535) % 65536 }

/-- Timer-2 half of one tick-loop iteration (lines 158-167): gated
decrement; on counter 0 while enabled, raise IFR bit 5 and disable. -/
def Via.tickT2 (acr : Nat) (v : Via) : Via :=
  if (Via.tickT2dec acr v).t2_counter == 0 && (Via.tickT2dec acr v).t2_enabled then
    { (Via.tickT2dec acr v).set_ifr ((Via.tickT2dec acr v).ifr ||| 32) with
      t2_enabled := false }
  else Via.tickT2dec acr v

/-- One iteration of the tick loop of `<Via as Memory>::update` (lines
138-168): the timer-1 handling followed by the timer-2 handling. -/
def Via.tickBody (acr : Nat) (v : Via) : Via :=
  Via.tickT2 acr (Via.tickT1 acr v)

/-- Iterated tick-loop body. -/
def Via.tickLoop (acr : Nat) : Nat → Via → Via
  | 0, v => v
  | n + 1, v => Via.tickLoop acr n (Via.tickBody acr v)

/-- Wrapping word-size subtraction, `usize::wrapping_sub`. -/
def usizeWrapSub (a b : Nat) : Nat := (a % 2 ^ 64 + 2 ^ 64 - b % 2 ^ 64) % 2 ^ 64

/-- Clock tick of the VIA, `<Via as Memory>::update` (lines 132-175): run
the loop body once per elapsed cycle, then report an irq signal iff IFR
bit 7 is set. -/
def Via.update (v : Via) (cycle : Nat) : Interrupt × Via :=
  let n := usizeWrapSub cycle v.last_update
  let v := { v with last_update := cycle }
  let acr := v.registers 11
  let v := Via.tickLoop acr n v
  (if v.ifr &&& 128 ≠ 0 then Interrupt.irqSignal else Interrupt.noSignal, v)

/-- Well-formedness of the interrupt registers: both are bytes and IFR bit 7
is set exactly when some enabled interrupt flag is pending
(`IFR & IER & 0x7F != 0`). -/
def Via.goodIfr (v : Via) : Prop :=
  v.ifr < 256 ∧ v.ier < 256 ∧ (v.ifr &&& 128 ≠ 0 ↔ v.ifr &&& v.ier &&& 127 ≠ 0)

/-- Well-formedness of the state after a register read (vacuous when the
read panics). -/
def Via.goodAfterRead : Option (Nat × Via) → Prop
  | none => True
  | some r => r.2.goodIfr

instance (v : Via) : Decidable v.goodIfr := by
  unfold Via.goodIfr
  infer_instance

/-- A 7-bit mask keeps the value below 128. -/
theorem and127_lt (x : Nat) : x &&& 127 < 128 := by
  have h : (127 : Nat) = 2 ^ 7 - 1 := by norm_num
  rw [h, Nat.and_pow_two_sub_one_eq_mod]
  exact Nat.mod_lt _ (by norm_num)

/-- Bit 7 of a value below 128 is clear. -/
theorem bit7_of_lt {m : Nat} (h : m < 128) : m.testBit 7 = false := by
  apply Nat.testBit_lt_two_pow
  omega

/-- Setting bit 7 makes the bit-7 test nonzero. -/
theorem or128_and128_ne (m : Nat) : (m ||| 128) &&& 128 ≠ 0 := by
  intro h0
  have h1 : ((m ||| 128) &&& 128).testBit 7 = false := by
    rw [h0]; exact Nat.zero_testBit 7
  rw [Nat.testBit_land, Nat.testBit_lor] at h1
  have h2 : (128 : Nat).testBit 7 = true := by decide
  simp [h2] at h1

/-- A value below 128 has an empty intersection with bit 7. -/
theorem small_and128 {m : Nat} (h : m < 128) : m &&& 128 = 0 := by
  apply Nat.eq_of_testBit_eq
  intro i
  rw [Nat.testBit_land, Nat.zero_testBit]
  by_cases hi : i = 7
  · subst hi; rw [bit7_of_lt h]; rfl
  · have h128 : (128 : Nat).testBit i = false := by
      have h2 : (128 : Nat) = 2 ^ 7 := by norm_num
      rw [h2]; exact Nat.testBit_two_pow_of_ne (fun hc => hi hc.symm)
    rw [h128]; simp

/-- Oring bit 7 in and masking it back out is invisible below bit 7. -/
theorem or128_and_and127 (m e : Nat) (hm : m < 128) :
    (m ||| 128) &&& e &&& 127 = m &&& e := by
  apply Nat.eq_of_testBit_eq
  intro i
  rw [Nat.testBit_land, Nat.testBit_land, Nat.testBit_lor, Nat.testBit_land]
  have h127 : (127 : Nat).testBit i = decide (i < 7) := by
    have h : (127 : Nat) = 2 ^ 7 - 1 := by norm_num
    rw [h]; exact Nat.testBit_two_pow_sub_one 7 i
  by_cases hi : i < 7
  · have h128 : (128 : Nat).testBit i = false := by
      have h2 : (128 : Nat) = 2 ^ 7 := by norm_num
      rw [h2]; exact Nat.testBit_two_pow_of_ne (by omega)
    simp [h127, hi, h128]
  · have hmi : m.testBit i = false := by
      apply Nat.testBit_lt_two_pow
      calc m < 128 := hm
        _ = 2 ^ 7 := by norm_num
        _ ≤ 2 ^ i := Nat.pow_le_pow_right (by norm_num) (by omega)
    simp [h127, hi, hmi]

/-- States sharing the interrupt registers share the invariant. -/
theorem Via.goodIfr_of_eq {v w : Via} (hv : v.goodIfr) (hifr : w.ifr = v.ifr)
    (hier : w.ier = v.ier) : w.goodIfr := by
  unfold Via.goodIfr at hv ⊢
  rw [hifr, hier]
  exact hv

/-- Writing any value through set_ifr re-establishes the IFR bit-7
invariant. -/
theorem Via.set_ifr_goodIfr (v : Via) (x : Nat) (hier : v.ier < 256) :
    (v.set_ifr x).goodIfr := by
  have hmlt : x &&& 127 < 128 := and127_lt x
  show (v.set_ifr x).ifr < 256 ∧ (v.set_ifr x).ier < 256 ∧
    ((v.set_ifr x).ifr &&& 128 ≠ 0 ↔ (v.set_ifr x).ifr &&& (v.set_ifr x).ier &&& 127 ≠ 0)
  have hifr : (v.set_ifr x).ifr =
      (if (x &&& 127) &&& v.ier ≠ 0 then (x &&& 127) ||| 128 else x &&& 127) := rfl
  have hier2 : (v.set_ifr x).ier = v.ier := rfl
  rw [hifr, hier2]
  by_cases hc : (x &&& 127) &&& v.ier ≠ 0
  · rw [if_pos hc]
    refine ⟨?_, hier, ?_⟩
    · have h8 : (2 : Nat) ^ 8 = 256 := by norm_num
      have h2 := Nat.or_lt_two_pow (show x &&& 127 < 2 ^ 8 by omega)
        (show (128 : Nat) < 2 ^ 8 by omega)
      omega
    · constructor
      · intro _
        rw [or128_and_and127 _ _ hmlt]
        exact hc
      · intro _
        exact or128_and128_ne _
  · rw [if_neg hc]
    have hc0 : x &&& 127 &&& v.ier = 0 := by omega
    refine ⟨by omega, hier, ?_⟩
    rw [small_and128 hmlt, hc0]
    simp

/-- Writing the IER register preserves byte bounds and re-establishes the
IFR bit-7 invariant. -/
theorem Via.set_ier_goodIfr (v : Via) (x : Nat) (hier : v.ier < 256) (hx : x < 256) :
    (v.set_ier x).goodIfr := by
  unfold Via.set_ier
  by_cases hc : x &&& 128 ≠ 0
  · rw [if_pos hc]
    apply Via.set_ifr_goodIfr
    show v.ier ||| x < 256
    have h8 : (2 : Nat) ^ 8 = 256 := by norm_num
    have h2 := Nat.or_lt_two_pow (show v.ier < 2 ^ 8 by omega) (show x < 2 ^ 8 by omega)
    omega
  · rw [if_neg hc]
    apply Via.set_ifr_goodIfr
    show v.ier &&& (x ^^^ 255) < 256
    have h2 : v.ier &&& (x ^^^ 255) ≤ v.ier := Nat.and_le_left
    omega

/-- The timer-1 underflow handling preserves the IFR bit-7 invariant. -/
theorem Via.tickT1fire_goodIfr (acr : Nat) (v : Via) (hv : v.goodIfr) :
    (Via.tickT1fire acr v).goodIfr := by
  unfold Via.tickT1fire
  by_cases he : v.t1_enabled = true
  · rw [if_pos he]
    by_cases hacr : acr &&& 64 = 0
    · rw [if_pos hacr]
      exact Via.goodIfr_of_eq (Via.set_ifr_goodIfr v (v.ifr ||| 64) hv.2.1) rfl rfl
    · rw [if_neg hacr]
      exact Via.set_ifr_goodIfr v (v.ifr ||| 64) hv.2.1
  · rw [if_neg he]
    exact hv

/-- The timer-1 half of the tick loop preserves the IFR bit-7 invariant. -/
theorem Via.tickT1_goodIfr (acr : Nat) (v : Via) (hv : v.goodIfr) :
    (Via.tickT1 acr v).goodIfr := by
  unfold Via.tickT1
  have hd : (Via.tickT1dec v).goodIfr :=
    Via.goodIfr_of_eq hv (by simp [Via.tickT1dec]) (by simp [Via.tickT1dec])
  have hf : (Via.tickT1fire acr (Via.tickT1dec v)).goodIfr :=
    Via.tickT1fire_goodIfr acr _ hd
  by_cases h0 : (Via.tickT1dec v).t1_counter = 0
  · rw [if_pos h0]
    exact Via.goodIfr_of_eq hf rfl rfl
  · rw [if_neg h0]
    exact hd

/-- The timer-2 half of the tick loop preserves the IFR bit-7 invariant. -/
theorem Via.tickT2_goodIfr (acr : Nat) (v : Via) (hv : v.goodIfr) :
    (Via.tickT2 acr v).goodIfr := by
  unfold Via.tickT2
  have hd : (Via.tickT2dec acr v).goodIfr := by
    unfold Via.tickT2dec
    by_cases hacr : acr &&& 32 ≠ 0
    · rw [if_pos hacr]; exact hv
    · rw [if_neg hacr]; exact Via.goodIfr_of_eq hv (by simp) (by simp)
  by_cases h2 : ((Via.tickT2dec acr v).t2_counter == 0 &&
      (Via.tickT2dec acr v).t2_enabled) = true
  · rw [if_pos h2]
    exact Via.goodIfr_of_eq
      (Via.set_ifr_goodIfr (Via.tickT2dec acr v) _ hd.2.1) rfl rfl
  · rw [if_neg h2]
    exact hd

/-- One tick-loop iteration preserves the IFR bit-7 invariant. -/
theorem Via.tickBody_goodIfr (acr : Nat) (v : Via) (hv : v.goodIfr) :
    (Via.tickBody acr v).goodIfr :=
  Via.tickT2_goodIfr acr _ (Via.tickT1_goodIfr acr v hv)

/-- The iterated tick loop preserves the IFR bit-7 invariant. -/
theorem Via.tickLoop_goodIfr (acr n : Nat) (v : Via) (hv : v.goodIfr) :
    (Via.tickLoop acr n v).goodIfr := by
  induction n generalizing v with
  | zero => exact hv
  | succ k ih => exact ih _ (Via.tickBody_goodIfr acr v hv)

/-- The VIA clock tick preserves the IFR bit-7 invariant. -/
theorem Via.update_goodIfr (v : Via) (cyc : Nat) (hv : v.goodIfr) :
    ((v.update cyc).2).goodIfr := by
  exact Via.tickLoop_goodIfr _ _ _ (Via.goodIfr_of_eq hv rfl rfl)

/-- Every VIA register write preserves the IFR bit-7 invariant. -/
theorem Via.write_goodIfr (v : Via) (addr value : Nat) (hv : v.goodIfr)
    (hval : value < 256) : (v.write_u8 addr value).goodIfr := by
  unfold Via.write_u8
  by_cases h4 : addr = 4
  · rw [if_pos h4]; exact Via.goodIfr_of_eq hv rfl rfl
  rw [if_neg h4]
  by_cases h5 : addr = 5
  · rw [if_pos h5]
    exact Via.goodIfr_of_eq
      (Via.set_ifr_goodIfr { v with t1_latch_hi := value } _ hv.2.1) rfl rfl
  rw [if_neg h5]
  by_cases h6 : addr = 6
  · rw [if_pos h6]; exact Via.goodIfr_of_eq hv rfl rfl
  rw [if_neg h6]
  by_cases h7 : addr = 7
  · rw [if_pos h7]
    exact Via.goodIfr_of_eq
      (Via.set_ifr_goodIfr { v with t1_latch_hi := value } _ hv.2.1) rfl rfl
  rw [if_neg h7]
  by_cases h8 : addr = 8
  · rw [if_pos h8]; exact Via.goodIfr_of_eq hv rfl rfl
  rw [if_neg h8]
  by_cases h9 : addr = 9
  · rw [if_pos h9]
    exact Via.goodIfr_of_eq
      (Via.set_ifr_goodIfr { v with t2_latch_hi := value } _ hv.2.1) rfl rfl
  rw [if_neg h9]
  by_cases h13 : addr = 13
  · rw [if_pos h13]; exact Via.set_ifr_goodIfr v value hv.2.1
  rw [if_neg h13]
  by_cases h14 : addr = 14
  · rw [if_pos h14]; exact Via.set_ier_goodIfr v value hv.2.1 hval
  rw [if_neg h14]
  by_cases h15 : addr ≤ 15
  · rw [if_pos h15]; exact Via.goodIfr_of_eq hv rfl rfl
  · rw [if_neg h15]; exact hv

/-- Every VIA register read preserves the IFR bit-7 invariant. -/
theorem Via.read_goodIfr (v : Via) (addr : Nat) (hv : v.goodIfr) :
    Via.goodAfterRead (v.read_u8 addr) := by
  unfold Via.read_u8
  by_cases h1 : addr = 1
  · rw [if_pos h1]
    cases h : Via.read_iora v <;> simp [Via.goodAfterRead, h, hv]
  rw [if_neg h1]
  by_cases h4 : addr = 4
  · rw [if_pos h4]
    exact Via.set_ifr_goodIfr v _ hv.2.1
  rw [if_neg h4]
  by_cases h5 : addr = 5
  · rw [if_pos h5]; exact hv
  rw [if_neg h5]
  by_cases h6 : addr = 6
  · rw [if_pos h6]; exact hv
  rw [if_neg h6]
  by_cases h7 : addr = 7
  · rw [if_pos h7]; exact hv
  rw [if_neg h7]
  by_cases h8 : addr = 8
  · rw [if_pos h8]
    exact Via.set_ifr_goodIfr v _ hv.2.1
  rw [if_neg h8]
  by_cases h9 : addr = 9
  · rw [if_pos h9]; exact hv
  rw [if_neg h9]
  by_cases h13 : addr = 13
  · rw [if_pos h13]; exact hv
  rw [if_neg h13]
  by_cases h14 : addr = 14
  · rw [if_pos h14]; exact hv
  rw [if_neg h14]
  by_cases h15 : addr ≤ 15
  · rw [if_pos h15]; exact hv
  · rw [if_neg h15]; exact hv

/-- C9: provided the well-formedness invariant held before, then after any
VIA register read (when it does not panic), any register write of a byte,
and any tick, IFR bit 7 is set exactly when `IFR & IER & 0x7F` is nonzero;
and the tick returns the irq signal iff the resulting IFR bit 7 is set. -/
theorem via_ifr_bit7_invariant (v : Via) (addr value cyc : Nat)
    (hv : v.goodIfr) (hval : value < 256) :
    Via.goodAfterRead (v.read_u8 addr) ∧
    (v.write_u8 addr value).goodIfr ∧
    ((v.update cyc).2).goodIfr ∧
    (v.update cyc).1 =
      (if (v.update cyc).2.ifr &&& 128 ≠ 0 then Interrupt.irqSignal else Interrupt.noSignal) :=
  ⟨Via.read_goodIfr v addr hv, Via.write_goodIfr v addr value hv hval,
    Via.update_goodIfr v cyc hv, rfl⟩

/-- A concrete VIA state used to instantiate the invariant theorem. -/
def viaTest : Via where
  registers := fun _ => 0
  key_state := fun _ => 255
  last_update := 0
  t1_latch_lo := 3
  t1_latch_hi := 0
  t1_counter := 2
  t1_enabled := true
  t2_latch_lo := 0
  t2_latch_hi := 0
  t2_counter := 5
  t2_enabled := false
  ifr := 0
  ier := 64

/-- Witness for C9 at the concrete state `viaTest`, reading/writing the IFR
offset and ticking two cycles. -/
theorem via_ifr_bit7_invariant_witness :
    viaTest.goodIfr ∧ (100 : Nat) < 256 ∧
    (Via.goodAfterRead (viaTest.read_u8 13) ∧
      (viaTest.write_u8 13 100).goodIfr ∧
      ((viaTest.update 2).2).goodIfr ∧
      (viaTest.update 2).1 =
        (if (viaTest.update 2).2.ifr &&& 128 ≠ 0 then Interrupt.irqSignal
         else Interrupt.noSignal)) :=
  ⟨by decide, by decide, via_ifr_bit7_invariant viaTest 13 100 2 (by decide) (by decide)⟩

/-- C10: reading the VIA IORA register (offset 1) panics (modelled as
`none`) whenever DDRA differs from 7, and with DDRA = 7 returns
`keys[IORA & DDRA] | (IORA & DDRA)` without changing the state. -/
theorem via_read_iora_requires_ddra7 (v : Via) :
    Via.read_u8 v 1 =
      (if v.registers 3 = 7 then
        some (v.key_state (v.registers 1 &&& v.registers 3) |||
          (v.registers 1 &&& v.registers 3), v)
      else none) := by
  by_cases h : v.registers 3 = 7 <;> simp [Via.read_u8, Via.read_iora, h]

/-- The instruction mnemonics, the `Opcode` enum matched on by
`step_instruction` in `src/src/cpu.rs` (one variant per documented W65C02
mnemonic). -/
inductive Opcode where
  | ADC | AND | ASL
  | BBR0 | BBR1 | BBR2 | BBR3 | BBR4 | BBR5 | BBR6 | BBR7
  | BBS0 | BBS1 | BBS2 | BBS3 | BBS4 | BBS5 | BBS6 | BBS7
  | BCC | BCS | BEQ | BIT | BMI | BNE | BPL | BRA | BRK | BVC | BVS
  | CLC | CLD | CLI | CLV | CMP | CPX | CPY
  | DEC | DEX | DEY | EOR | INC | INX | INY
  | JMP | JSR | LDA | LDX | LDY | LSR | NOP | ORA
  | PHA | PHP | PHX | PHY | PLA | PLP | PLX | PLY
  | RMB0 | RMB1 | RMB2 | RMB3 | RMB4 | RMB5 | RMB6 | RMB7
  | ROL | ROR | RTI | RTS | SBC | SEC | SED | SEI
  | SMB0 | SMB1 | SMB2 | SMB3 | SMB4 | SMB5 | SMB6 | SMB7
  | STA | STP | STX | STY | STZ
  | TAX | TAY | TRB | TSB | TSX | TXA | TXS | TYA | WAI
deriving DecidableEq, Repr

/-- The 15 addressing-mode variants used by `cpu.rs` and `assembler.rs`
(the spec's data model: `None`, `Accumulator`, `Immediate`, the absolute
family, `ProgramCounterRelative` and the zero-page family). -/
inductive AddressingMode where
  | None
  | Accumulator
  | Immediate
  | Absolute
  | AbsoluteIndexedX
  | AbsoluteIndexedY
  | AbsoluteIndirect
  | AbsoluteIndexedIndirectX
  | ProgramCounterRelative
  | ZeroPage
  | ZeroPageIndexedX
  | ZeroPageIndexedY
  | ZeroPageIndirect
  | ZeroPageIndexedIndirectX
  | ZeroPageIndirectIndexedY
deriving DecidableEq, Repr

/-- Modelled from the spec: bytes consumed after the opcode byte by each
addressing mode (`None`/`Accumulator` 0; `Immediate`, `ProgramCounterRelative`
and the zero-page modes 1; the absolute modes 2).  The current `opcode.rs`
holding this helper is not under `src`. -/
def AddressingMode.width : AddressingMode → Nat
  | .None | .Accumulator => 0
  | .Immediate | .ProgramCounterRelative | .ZeroPage | .ZeroPageIndexedX
  | .ZeroPageIndexedY | .ZeroPageIndirect | .ZeroPageIndexedIndirectX
  | .ZeroPageIndirectIndexedY => 1
  | .Absolute | .AbsoluteIndexedX | .AbsoluteIndexedY | .AbsoluteIndirect
  | .AbsoluteIndexedIndirectX => 2

/-- Modelled from the spec: one opcode-table record (the spec's opcode meta:
encoded byte, mnemonic, two addressing-mode parameters, base cycle count).
The current `opcode.rs` defining `InstructionMeta` is not under `src`; the
stale copy in the tree lacks the `cycles` field used by `cpu.rs`. -/
structure InstructionMeta where
  byte : Nat
  opcode : Opcode
  parameter_1 : AddressingMode
  parameter_2 : AddressingMode
  cycles : Nat
deriving DecidableEq, Repr

/-- Modelled from the spec: instruction width in bytes, one for the opcode
byte plus the widths of both parameters. -/
def InstructionMeta.width (m : InstructionMeta) : Nat :=
  1 + m.parameter_1.width + m.parameter_2.width

/-- The assembler error taxonomy, `AssemblerError` of `src/src/assembler.rs`
(lines 9-27). -/
inductive AssemblerError where
  | Generic (msg : String)
  | DoubleLabel (label : String)
  | UnknownLabel (label : String)
  | AddressOverflow
  | InvalidOpcode
  | ParameterMismatch (detail : String)
  | JumpTooFar
  | IOError
deriving DecidableEq, Repr

/-- An operand of an assembled instruction, `AssembledParameter` of
`src/src/assembler.rs` (lines 135-140). -/
inductive AssembledParameter where
  | Label (name : String)
  | U8 (value : Nat)
  | U16 (value : Nat)
deriving DecidableEq, Repr

/-- An assembled instruction, `AssembledInstruction` of `src/src/assembler.rs`
(lines 142-147): the chosen opcode-table record and up to two operands. -/
structure AssembledInstruction where
  instruction : InstructionMeta
  parameter_1 : Option AssembledParameter
  parameter_2 : Option AssembledParameter
deriving DecidableEq, Repr

/-- Pass-2 label substitution, `AssembledInstruction::fill_label`
(`src/src/assembler.rs` lines 395-443).  A non-label operand is left alone.
A label is looked up (`UnknownLabel` on a miss); under
`ProgramCounterRelative` the displacement from the cursor is encoded as a
signed byte (`(d as i8).wrapping_neg() as u8` on the negative side), with
`JumpTooFar` outside the representable range; under an absolute-family mode
the resolved 16-bit address is substituted; other modes are
`ParameterMismatch`. -/
def AssembledInstruction.fill_label (parameter : AssembledParameter)
    (addressing_mode : AddressingMode) (address : Nat)
    (labels : String → Option Nat) : Except AssemblerError AssembledParameter :=
  match parameter with
  | .Label label =>
    match labels label with
    | Option.none => .error (.UnknownLabel label)
    | some resolved =>
      match addressing_mode with
      | .ProgramCounterRelative =>
        if resolved < address then
          if address - resolved ≤ 128 then .ok (.U8 ((256 - (address - resolved)) % 256))
          else .error .JumpTooFar
        else
          if resolved - address ≤ 127 then .ok (.U8 (resolved - address))
          else .error .JumpTooFar
      | .Absolute | .AbsoluteIndexedX | .AbsoluteIndexedY | .AbsoluteIndirect
      | .AbsoluteIndexedIndirectX => .ok (.U16 resolved)
      | _ => .error (.ParameterMismatch "could not replace label with actual address")
  | p => .ok p

/-- Pass-2 label substitution over both operands,
`AssembledInstruction::fill_labels` (lines 445-457). -/
def AssembledInstruction.fill_labels (ai : AssembledInstruction) (address : Nat)
    (labels : String → Option Nat) : Except AssemblerError AssembledInstruction :=
  match (match ai.parameter_1 with
         | some p => (AssembledInstruction.fill_label p ai.instruction.parameter_1
             address labels).map some
         | Option.none => .ok Option.none) with
  | .error e => .error e
  | .ok p1 =>
    match (match ai.parameter_2 with
           | some p => (AssembledInstruction.fill_label p ai.instruction.parameter_2
               address labels).map some
           | Option.none => .ok Option.none) with
    | .error e => .error e
    | .ok p2 => .ok { ai with parameter_1 := p1, parameter_2 := p2 }

/-- Pass 2 of `Assembly::assemble` (`src/src/assembler.rs` lines 493-502):
walk the assembled list with a running address cursor, advancing it by the
instruction's width before resolving that instruction's labels, so labels
resolve relative to the byte after the instruction. -/
def Assembly.pass2 (labels : String → Option Nat) :
    List AssembledInstruction → Nat → Except AssemblerError (List AssembledInstruction)
  | [], _ => .ok []
  | ai :: rest, address =>
    match ai.fill_labels (address + ai.instruction.width) labels with
    | .error e => .error e
    | .ok ai2 =>
      match Assembly.pass2 labels rest (address + ai.instruction.width) with
      | .error e => .error e
      | .ok rest2 => .ok (ai2 :: rest2)

/-- C8: a PC-relative label operand resolves exactly when the signed
displacement `resolved - cursor` lies in `-128..=127`, in which case it is
encoded as that displacement modulo 256 (its signed 8-bit representation),
failing with JumpTooFar otherwise; and pass 2 resolves each instruction
against the cursor advanced past that instruction (the byte after it). -/
theorem pcr_label_resolution (lab : String) (labels : String → Option Nat)
    (address resolved : Nat) (ai : AssembledInstruction)
    (rest : List AssembledInstruction)
    (hres : labels lab = some resolved) :
    (AssembledInstruction.fill_label (.Label lab) .ProgramCounterRelative address labels =
      (if -128 ≤ (resolved : Int) - (address : Int) ∧ (resolved : Int) - (address : Int) ≤ 127
       then Except.ok (AssembledParameter.U8 ((((resolved : Int) - (address : Int)) % 256).toNat))
       else Except.error AssemblerError.JumpTooFar)) ∧
    (Assembly.pass2 labels (ai :: rest) address =
      match ai.fill_labels (address + ai.instruction.width) labels with
      | .error e => .error e
      | .ok ai2 =>
        match Assembly.pass2 labels rest (address + ai.instruction.width) with
        | .error e => .error e
        | .ok rest2 => .ok (ai2 :: rest2)) := by
  constructor
  · simp only [AssembledInstruction.fill_label, hres]
    by_cases hlt : resolved < address
    · rw [if_pos hlt]
      by_cases hd : address - resolved ≤ 128
      · rw [if_pos hd, if_pos (by omega)]
        simp only [Except.ok.injEq, AssembledParameter.U8.injEq]
        omega
      · rw [if_neg hd, if_neg (by omega)]
    · rw [if_neg hlt]
      by_cases hd : resolved - address ≤ 127
      · rw [if_pos hd, if_pos (by omega)]
        simp only [Except.ok.injEq, AssembledParameter.U8.injEq]
        omega
      · rw [if_neg hd, if_neg (by omega)]
  · rfl

/-- Concrete opcode-table record used in witnesses: BRA, PC-relative. -/
def braMeta : InstructionMeta where
  byte := 0x80
  opcode := .BRA
  parameter_1 := .ProgramCounterRelative
  parameter_2 := .None
  cycles := 3

/-- Concrete assembled instruction with an unresolved label operand. -/
def braToT : AssembledInstruction where
  instruction := braMeta
  parameter_1 := some (.Label "t")
  parameter_2 := Option.none

/-- Concrete label table binding "t" to address 10. -/
def labelsT : String → Option Nat := fun s => if s = "t" then some 10 else Option.none

/-- Witness for C8: resolving a forward reference to address 10 from cursor
5 against the concrete label table. -/
theorem pcr_label_resolution_witness :
    labelsT "t" = some 10 ∧
    ((AssembledInstruction.fill_label (.Label "t") .ProgramCounterRelative 5 labelsT =
      (if -128 ≤ (10 : Int) - (5 : Int) ∧ (10 : Int) - (5 : Int) ≤ 127
       then Except.ok (AssembledParameter.U8 ((((10 : Int) - (5 : Int)) % 256).toNat))
       else Except.error AssemblerError.JumpTooFar)) ∧
    (Assembly.pass2 labelsT (braToT :: []) 5 =
      match braToT.fill_labels (5 + braToT.instruction.width) labelsT with
      | .error e => .error e
      | .ok ai2 =>
        match Assembly.pass2 labelsT [] (5 + braToT.instruction.width) with
        | .error e => .error e
        | .ok rest2 => .ok (ai2 :: rest2))) :=
  ⟨rfl, pcr_label_resolution "t" labelsT 5 10 braToT [] rfl⟩

/-- Byte read through the bus, lifting the memory state into the CPU. -/
def Cpu.memRead {σ : Type} (M : MemModel σ) (c : Cpu σ) (addr : Nat) : Nat × Cpu σ :=
  ((M.read_u8 c.memory addr).1, { c with memory := (M.read_u8 c.memory addr).2 })

/-- Byte write through the bus. -/
def Cpu.memWrite {σ : Type} (M : MemModel σ) (c : Cpu σ) (addr value : Nat) : Cpu σ :=
  { c with memory := M.write_u8 c.memory addr value }

/-- Word read through the bus. -/
def Cpu.memRead16 {σ : Type} (M : MemModel σ) (c : Cpu σ) (addr : Nat) : Nat × Cpu σ :=
  ((M.read_u16 c.memory addr).1, { c with memory := (M.read_u16 c.memory addr).2 })

/-- Zero-page word read through the bus. -/
def Cpu.memRead16zp {σ : Type} (M : MemModel σ) (c : Cpu σ) (addr : Nat) : Nat × Cpu σ :=
  ((M.read_u16_zp c.memory addr).1, { c with memory := (M.read_u16_zp c.memory addr).2 })

/-- Operand fetch `Cpu::read_u8_inc_pc` (`src/src/cpu.rs` lines 476-480):
read the byte at PC and advance PC by one (16-bit space). -/
def Cpu.read_u8_inc_pc {σ : Type} (M : MemModel σ) (c : Cpu σ) : Nat × Cpu σ :=
  ((M.read_u8 c.memory c.pc).1,
    { c with memory := (M.read_u8 c.memory c.pc).2, pc := (c.pc + 1) % 65536 })

/-- Operand fetch `Cpu::read_u16_inc_pc` (lines 482-486). -/
def Cpu.read_u16_inc_pc {σ : Type} (M : MemModel σ) (c : Cpu σ) : Nat × Cpu σ :=
  ((M.read_u16 c.memory c.pc).1,
    { c with memory := (M.read_u16 c.memory c.pc).2, pc := (c.pc + 2) % 65536 })

/-- Address evaluation `Cpu::read_address_operand` (`src/src/cpu.rs` lines
500-561): the effective address and the page-cross bit per addressing mode.
The `unimplemented!()` arms (`None`, `Accumulator`, `Immediate`) are
modelled by `none`. -/
def Cpu.read_address_operand {σ : Type} (M : MemModel σ) (c : Cpu σ) :
    AddressingMode → Option ((Nat × Bool) × Cpu σ)
  | .Absolute =>
    some (((c.read_u16_inc_pc M).1, false), (c.read_u16_inc_pc M).2)
  | .AbsoluteIndexedX =>
    some ((((c.read_u16_inc_pc M).1 + c.x) % 65536,
      decide ((c.read_u16_inc_pc M).1 >>> 8 ≠
        (((c.read_u16_inc_pc M).1 + c.x) % 65536) >>> 8)), (c.read_u16_inc_pc M).2)
  | .AbsoluteIndexedY =>
    some ((((c.read_u16_inc_pc M).1 + c.y) % 65536,
      decide ((c.read_u16_inc_pc M).1 >>> 8 ≠
        (((c.read_u16_inc_pc M).1 + c.y) % 65536) >>> 8)), (c.read_u16_inc_pc M).2)
  | .AbsoluteIndirect =>
    some ((((c.read_u16_inc_pc M).2.memRead16 M ((c.read_u16_inc_pc M).1)).1, false),
      ((c.read_u16_inc_pc M).2.memRead16 M ((c.read_u16_inc_pc M).1)).2)
  | .AbsoluteIndexedIndirectX =>
    some ((((c.read_u16_inc_pc M).2.memRead16 M
        (((c.read_u16_inc_pc M).1 + c.x) % 65536)).1, false),
      ((c.read_u16_inc_pc M).2.memRead16 M (((c.read_u16_inc_pc M).1 + c.x) % 65536)).2)
  | .ProgramCounterRelative =>
    some ((((c.read_u8_inc_pc M).2.pc +
      (if (c.read_u8_inc_pc M).1 < 128 then (c.read_u8_inc_pc M).1
       else (c.read_u8_inc_pc M).1 + 65280)) % 65536, false), (c.read_u8_inc_pc M).2)
  | .ZeroPage =>
    some (((c.read_u8_inc_pc M).1, false), (c.read_u8_inc_pc M).2)
  | .ZeroPageIndexedX =>
    some (((((c.read_u8_inc_pc M).1 + c.x) % 256, false)), (c.read_u8_inc_pc M).2)
  | .ZeroPageIndexedY =>
    some (((((c.read_u8_inc_pc M).1 + c.y) % 256, false)), (c.read_u8_inc_pc M).2)
  | .ZeroPageIndirect =>
    some ((((c.read_u8_inc_pc M).2.memRead16zp M ((c.read_u8_inc_pc M).1)).1, false),
      ((c.read_u8_inc_pc M).2.memRead16zp M ((c.read_u8_inc_pc M).1)).2)
  | .ZeroPageIndexedIndirectX =>
    some ((((c.read_u8_inc_pc M).2.memRead16zp M
        (((c.read_u8_inc_pc M).1 + c.x) % 256)).1, false),
      ((c.read_u8_inc_pc M).2.memRead16zp M (((c.read_u8_inc_pc M).1 + c.x) % 256)).2)
  | .ZeroPageIndirectIndexedY =>
    some (((((c.read_u8_inc_pc M).2.memRead16zp M ((c.read_u8_inc_pc M).1)).1 + c.y) % 65536,
      decide (((c.read_u8_inc_pc M).2.memRead16zp M ((c.read_u8_inc_pc M).1)).1 >>> 8 ≠
        ((((c.read_u8_inc_pc M).2.memRead16zp M ((c.read_u8_inc_pc M).1)).1 + c.y) % 65536)
          >>> 8)),
      ((c.read_u8_inc_pc M).2.memRead16zp M ((c.read_u8_inc_pc M).1)).2)
  | _ => Option.none

/-- Value evaluation `Cpu::read_value_operand` (lines 489-498): the
accumulator or an immediate byte directly, otherwise a read at the
effective address. -/
def Cpu.read_value_operand {σ : Type} (M : MemModel σ) (c : Cpu σ)
    (mode : AddressingMode) : Option ((Nat × Bool) × Cpu σ) :=
  match mode with
  | .Accumulator => some ((c.a, false), c)
  | .Immediate => some (((c.read_u8_inc_pc M).1, false), (c.read_u8_inc_pc M).2)
  | _ =>
    match c.read_address_operand M mode with
    | Option.none => Option.none
    | some ((addr, page_cross), c2) =>
      some (((c2.memRead M addr).1, page_cross), (c2.memRead M addr).2)

/-- Stack push `Cpu::push` (lines 583-586): write at `0x0100 + S`, then
decrement S with byte wrap. -/
def Cpu.push {σ : Type} (M : MemModel σ) (c : Cpu σ) (value : Nat) : Cpu σ :=
  { c.memWrite M (256 + c.s) value with s := (c.s + 255) % 256 }

/-- Stack push of PC, high byte then low byte (`Cpu::push_pc`, lines
593-597). -/
def Cpu.push_pc {σ : Type} (M : MemModel σ) (c : Cpu σ) : Cpu σ :=
  (c.push M (c.pc >>> 8)).push M (c.pc % 256)

/-- Status push with the unused bit forced high and brk clear
(`Cpu::push_flags_no_brk`, lines 615-618). -/
def Cpu.push_flags_no_brk {σ : Type} (M : MemModel σ) (c : Cpu σ) : Cpu σ :=
  c.push M (c.p.into_bits ||| 32)

/-- The NMI/IRQ entry sequence of `step_instruction` (lines 96-106): stack
PC and flags, mask interrupts, clear decimal, load the handler vector. -/
def Cpu.enterInterrupt {σ : Type} (M : MemModel σ) (c : Cpu σ) (isNmi : Bool) : Cpu σ :=
  { (c.push_pc M).push_flags_no_brk M with
    p := { ((c.push_pc M).push_flags_no_brk M).p with
      irqb_disable := true, decimal_mode := false },
    memory := (M.read_u16 ((c.push_pc M).push_flags_no_brk M).memory
      (if isNmi then 0xFFFA else 0xFFFE)).2,
    pc := (M.read_u16 ((c.push_pc M).push_flags_no_brk M).memory
      (if isNmi then 0xFFFA else 0xFFFE)).1 }

/-- Per-mnemonic execution of `step_instruction`'s match (`src/src/cpu.rs`
lines 115-459), returning the extra cycles accumulated and the new state.
The arms needed by this development (ADC, SBC, ASL, LSR, ROL, ROR, INC,
DEC, STZ, NOP, STP, WAI) are translated from the source; the remaining
arms, which the source implements but no claim here touches, are mapped to
`none`. -/
def Cpu.exec_opcode {σ : Type} (M : MemModel σ) (c : Cpu σ) (meta : InstructionMeta) :
    Option (Nat × Cpu σ) :=
  match meta.opcode with
  | .ADC =>
    match c.read_value_operand M meta.parameter_1 with
    | Option.none => Option.none
    | some ((m, page_cross), c) =>
      if c.p.decimal_mode then
        some ((if page_cross then 1 else 0) + 1, c.do_addition_decimal m)
      else some ((if page_cross then 1 else 0), c.do_addition m)
  | .SBC =>
    match c.read_value_operand M meta.parameter_1 with
    | Option.none => Option.none
    | some ((m, page_cross), c) =>
      if c.p.decimal_mode then
        some ((if page_cross then 1 else 0) + 1, c.do_subtraction_decimal m)
      else some ((if page_cross then 1 else 0), c.do_subtraction m)
  | .ASL =>
    if meta.parameter_1 = .Accumulator then
      some (0, { c.set_a ((c.a <<< 1) % 256) with
        p := { (c.set_a ((c.a <<< 1) % 256)).p with carry := decide (c.a &&& 128 ≠ 0) } })
    else
      match c.read_address_operand M meta.parameter_1 with
      | Option.none => Option.none
      | some ((addr, page_cross), c) =>
        some ((if page_cross then 1 else 0),
          { ((c.memRead M addr).2.memWrite M addr
                (((c.memRead M addr).1 <<< 1) % 256)).update_nz_flags
              (((c.memRead M addr).1 <<< 1) % 256) with
            p := { (((c.memRead M addr).2.memWrite M addr
                (((c.memRead M addr).1 <<< 1) % 256)).update_nz_flags
                  (((c.memRead M addr).1 <<< 1) % 256)).p with
              carry := decide ((c.memRead M addr).1 &&& 128 ≠ 0) } })
  | .LSR =>
    if meta.parameter_1 = .Accumulator then
      some (0, { c.set_a (c.a >>> 1) with
        p := { (c.set_a (c.a >>> 1)).p with carry := decide (c.a &&& 1 ≠ 0) } })
    else
      match c.read_address_operand M meta.parameter_1 with
      | Option.none => Option.none
      | some ((addr, page_cross), c) =>
        some ((if page_cross then 1 else 0),
          { ((c.memRead M addr).2.memWrite M addr
                ((c.memRead M addr).1 >>> 1)).update_nz_flags
              ((c.memRead M addr).1 >>> 1) with
            p := { (((c.memRead M addr).2.memWrite M addr
                ((c.memRead M addr).1 >>> 1)).update_nz_flags
                  ((c.memRead M addr).1 >>> 1)).p with
              carry := decide ((c.memRead M addr).1 &&& 1 ≠ 0) } })
  | .ROL =>
    if meta.parameter_1 = .Accumulator then
      some (0, { c.set_a (((c.a <<< 1) % 256) ||| (if c.p.carry then 1 else 0)) with
        p := { (c.set_a (((c.a <<< 1) % 256) ||| (if c.p.carry then 1 else 0))).p with
          carry := decide (c.a &&& 128 ≠ 0) } })
    else
      match c.read_address_operand M meta.parameter_1 with
      | Option.none => Option.none
      | some ((addr, page_cross), c) =>
        some ((if page_cross then 1 else 0),
          { ((c.memRead M addr).2.memWrite M addr
                ((((c.memRead M addr).1 <<< 1) % 256) |||
                  (if c.p.carry then 1 else 0))).update_nz_flags
              ((((c.memRead M addr).1 <<< 1) % 256) ||| (if c.p.carry then 1 else 0)) with
            p := { (((c.memRead M addr).2.memWrite M addr
                ((((c.memRead M addr).1 <<< 1) % 256) |||
                  (if c.p.carry then 1 else 0))).update_nz_flags
                  ((((c.memRead M addr).1 <<< 1) % 256) |||
                    (if c.p.carry then 1 else 0))).p with
              carry := decide ((c.memRead M addr).1 &&& 128 ≠ 0) } })
  | .ROR =>
    if meta.parameter_1 = .Accumulator then
      some (0, { c.set_a ((c.a >>> 1) ||| ((if c.p.carry then 1 else 0) <<< 7)) with
        p := { (c.set_a ((c.a >>> 1) ||| ((if c.p.carry then 1 else 0) <<< 7))).p with
          carry := decide (c.a &&& 1 ≠ 0) } })
    else
      match c.read_address_operand M meta.parameter_1 with
      | Option.none => Option.none
      | some ((addr, page_cross), c) =>
        some ((if page_cross then 1 else 0),
          { ((c.memRead M addr).2.memWrite M addr
                (((c.memRead M addr).1 >>> 1) |||
                  ((if c.p.carry then 1 else 0) <<< 7))).update_nz_flags
              (((c.memRead M addr).1 >>> 1) ||| ((if c.p.carry then 1 else 0) <<< 7)) with
            p := { (((c.memRead M addr).2.memWrite M addr
                (((c.memRead M addr).1 >>> 1) |||
                  ((if c.p.carry then 1 else 0) <<< 7))).update_nz_flags
                  (((c.memRead M addr).1 >>> 1) |||
                    ((if c.p.carry then 1 else 0) <<< 7))).p with
              carry := decide ((c.memRead M addr).1 &&& 1 ≠ 0) } })
  | .INC =>
    if meta.parameter_1 = .Accumulator then
      some (0, c.set_a ((c.a + 1) % 256))
    else
      match c.read_address_operand M meta.parameter_1 with
      | Option.none => Option.none
      | some ((addr, page_cross), c) =>
        some ((if page_cross ∧ meta.parameter_1 ≠ .AbsoluteIndexedX then 1 else 0),
          ((c.memRead M addr).2.memWrite M addr
              (((c.memRead M addr).1 + 1) % 256)).update_nz_flags
            (((c.memRead M addr).1 + 1) % 256))
  | .DEC =>
    if meta.parameter_1 = .Accumulator then
      some (0, c.set_a ((c.a + 255) % 256))
    else
      match c.read_address_operand M meta.parameter_1 with
      | Option.none => Option.none
      | some ((addr, page_cross), c) =>
        some ((if page_cross ∧ meta.parameter_1 ≠ .AbsoluteIndexedX then 1 else 0),
          ((c.memRead M addr).2.memWrite M addr
              (((c.memRead M addr).1 + 255) % 256)).update_nz_flags
            (((c.memRead M addr).1 + 255) % 256))
  | .STZ =>
    match c.read_address_operand M meta.parameter_1 with
    | Option.none => Option.none
    | some ((addr, _), c) => some (0, c.memWrite M addr 0)
  | .NOP => some (0, c)
  | .STP => some (0, { c with run := false })
  | .WAI => some (0, { c with wai := true })
  | _ => Option.none

/-- One instruction step, `Cpu::step_instruction` (`src/src/cpu.rs` lines
88-474), parametrized by the opcode-lookup table `tbl` (the `get_instruction`
table lives in the `opcode.rs` that is not under `src`): a stopped CPU
returns 0; the bus is ticked at the current cycle and pending NMI/unmasked
IRQ is serviced (clearing `wai`); if `wai` is still set, a 1-cycle credit is
returned with the cycle counter untouched; otherwise the opcode byte is
fetched and executed, and the cycle counter advances by base plus extra
cycles (1 for an undocumented byte). -/
def Cpu.step_instruction {σ : Type} (M : MemModel σ) (tbl : Nat → Option InstructionMeta)
    (c : Cpu σ) : Option (Nat × Cpu σ) :=
  if c.run = false then some (0, c)
  else
    match (if (M.update c.memory c.cycle).1.is_nmi || (M.update c.memory c.cycle).1.is_irq then
        (if (M.update c.memory c.cycle).1.is_nmi ||
            ((M.update c.memory c.cycle).1.is_irq && !c.p.irqb_disable) then
          Cpu.enterInterrupt M
            { c with memory := (M.update c.memory c.cycle).2, wai := false }
            (M.update c.memory c.cycle).1.is_nmi
        else { c with memory := (M.update c.memory c.cycle).2, wai := false })
      else { c with memory := (M.update c.memory c.cycle).2 }) with
    | c2 =>
      if c2.wai = true then some (1, c2)
      else
        match tbl ((c2.read_u8_inc_pc M).1) with
        | some meta =>
          match (c2.read_u8_inc_pc M).2.exec_opcode M meta with
          | Option.none => Option.none
          | some (extra, c3) =>
            some (meta.cycles + extra,
              { c3 with cycle := (c3.cycle + (meta.cycles + extra)) % 2 ^ 64 })
        | Option.none =>
          some (1, { (c2.read_u8_inc_pc M).2 with
            cycle := ((c2.read_u8_inc_pc M).2.cycle + 1) % 2 ^ 64 })

/-- A concrete CPU state that is running but waiting for an interrupt. -/
def waiCpu : Cpu (Nat → Nat) where
  a := 1
  x := 2
  y := 3
  s := 253
  p := Status.default
  pc := 512
  memory := fun _ => 0
  run := true
  wai := true
  cycle := 0

/-- C6 (code evaluated at the failing input): with `run` and `wai` set and a
bus tick delivering no interrupt, `step_instruction` returns a 1-cycle
credit and leaves the entire CPU state — the cycle counter included —
unchanged: the credit is never added to `cycle`, contradicting the claim
that the counter advances. -/
theorem wai_idle_credit_without_cycle_advance :
    Cpu.step_instruction ramModel (fun _ => Option.none) waiCpu = some (1, waiCpu) ∧
    waiCpu.cycle = 0 :=
  ⟨rfl, rfl⟩

/-- The opcode-table record for ASL absolute,X (byte 0x1E), base 6 cycles
per the WDC datasheet. -/
def aslMetaX : InstructionMeta where
  byte := 0x1E
  opcode := .ASL
  parameter_1 := .AbsoluteIndexedX
  parameter_2 := .None
  cycles := 6

/-- Lookup table holding only the ASL abs,X record. -/
def aslTbl : Nat → Option InstructionMeta :=
  fun b => if b = 0x1E then some aslMetaX else Option.none

/-- A CPU about to execute `ASL $12FF,X` with X = 1, so the indexed address
0x1300 crosses the page of the base 0x12FF. -/
def aslCpu : Cpu (Nat → Nat) where
  a := 0
  x := 1
  y := 0
  s := 253
  p := Status.default
  pc := 0
  memory := fun a => if a = 0 then 0x1E else if a = 1 then 0xFF else if a = 2 then 0x12 else 0
  run := true
  wai := false
  cycle := 0

/-- C2 counterexample: executing ASL in absolute-indexed mode with a page
cross charges 7 cycles, one more than the base count 6, refuting the claim
that these read-modify-write instructions never take a page-cross penalty. -/
theorem asl_absx_page_cross_extra_cycle :
    (Cpu.step_instruction ramModel aslTbl aslCpu).map Prod.fst = some 7 ∧
    aslMetaX.cycles = 6 := by
  constructor
  · rfl
  · rfl

/-- Extra cycles the read-modify-write instructions charge on an
absolute-indexed access: ASL, LSR, ROL and ROR take one extra cycle on a
page cross; INC, DEC and STZ never do. -/
def rmwExtra (op : Opcode) (cross : Bool) : Nat :=
  match op with
  | .ASL | .LSR | .ROL | .ROR => if cross then 1 else 0
  | _ => 0

/-- The page-cross bit the absolute-indexed-X addressing unit computes for
the instruction at PC (operand fetched after the opcode byte). -/
def absXPageCross (c : Cpu (Nat → Nat)) : Bool :=
  match (c.read_u8_inc_pc ramModel).2.read_address_operand ramModel .AbsoluteIndexedX with
  | some ((_, cross), _) => cross
  | Option.none => false

/-- C2 (amended): for INC, DEC and STZ in absolute-indexed addressing, one
step charges exactly the base cycle count of the looked-up record; for ASL,
LSR, ROL and ROR it charges the base count plus one extra cycle exactly
when the indexed address crosses a page boundary. -/
theorem rmw_absx_cycle_charges (tbl : Nat → Option InstructionMeta)
    (meta : InstructionMeta) (c : Cpu (Nat → Nat))
    (hrun : c.run = true) (hwai : c.wai = false)
    (htbl : tbl (ramByte c.memory c.pc) = some meta)
    (hmode : meta.parameter_1 = AddressingMode.AbsoluteIndexedX)
    (hop : meta.opcode = .INC ∨ meta.opcode = .DEC ∨ meta.opcode = .STZ ∨
      meta.opcode = .ASL ∨ meta.opcode = .LSR ∨ meta.opcode = .ROL ∨
      meta.opcode = .ROR) :
    (Cpu.step_instruction ramModel tbl c).map Prod.fst =
      some (meta.cycles + rmwExtra meta.opcode (absXPageCross c)) := by
  have htbl2 : tbl (c.memory (c.pc % 65536) % 256) = some meta := htbl
  simp only [Cpu.step_instruction, hrun, hwai, ramModel, Interrupt.is_nmi, Interrupt.is_irq,
    Interrupt.noSignal, Bool.or_self, Bool.false_or, Bool.or_false, Cpu.read_u8_inc_pc,
    Bool.false_eq_true, if_false, reduceCtorEq, htbl2]
  rcases hop with h | h | h | h | h | h | h <;>
    simp only [Cpu.exec_opcode, h, hmode, absXPageCross, Cpu.read_address_operand,
      Cpu.read_u16_inc_pc, MemModel.read_u16, Cpu.read_u8_inc_pc, Cpu.memRead,
      Cpu.memWrite, ramModel, rmwExtra, reduceCtorEq, if_false, ite_false,
      Option.map_some, ne_eq, not_false_eq_true, not_true_eq_false, false_and,
      and_true, and_false, if_true, ite_true, Option.map, Nat.add_zero]

/-- The opcode-table record for INC absolute,X (byte 0xFE), base 7 cycles
per the WDC datasheet. -/
def incMetaX : InstructionMeta where
  byte := 0xFE
  opcode := .INC
  parameter_1 := .AbsoluteIndexedX
  parameter_2 := .None
  cycles := 7

/-- Lookup table holding only the INC abs,X record. -/
def incTbl : Nat → Option InstructionMeta :=
  fun b => if b = 0xFE then some incMetaX else Option.none

/-- A CPU about to execute `INC $12FF,X` with X = 1 (a page-crossing
indexed access). -/
def incCpu : Cpu (Nat → Nat) where
  a := 0
  x := 1
  y := 0
  s := 253
  p := Status.default
  pc := 0
  memory := fun a => if a = 0 then 0xFE else if a = 1 then 0xFF else if a = 2 then 0x12 else 0
  run := true
  wai := false
  cycle := 0

/-- Witness for the amended C2 at the concrete page-crossing INC. -/
theorem rmw_absx_cycle_charges_witness :
    incCpu.run = true ∧ incCpu.wai = false ∧
    incTbl (ramByte incCpu.memory incCpu.pc) = some incMetaX ∧
    incMetaX.parameter_1 = AddressingMode.AbsoluteIndexedX ∧
    (incMetaX.opcode = .INC ∨ incMetaX.opcode = .DEC ∨ incMetaX.opcode = .STZ ∨
      incMetaX.opcode = .ASL ∨ incMetaX.opcode = .LSR ∨ incMetaX.opcode = .ROL ∨
      incMetaX.opcode = .ROR) ∧
    (Cpu.step_instruction ramModel incTbl incCpu).map Prod.fst =
      some (incMetaX.cycles + rmwExtra incMetaX.opcode (absXPageCross incCpu)) :=
  ⟨rfl, rfl, rfl, rfl, Or.inl rfl,
    rmw_absx_cycle_charges incTbl incMetaX incCpu rfl rfl rfl rfl (Or.inl rfl)⟩

end Cody
